import Mathlib

/-
Verification of the Partnership-for-PTA backend persistence layer.

Shallow embedding of `lib/googleSheets.ts` (row codec, snapshot loader,
snapshot writer, credential check) and of the mutation handlers in
`src/server.ts` (POST /transactions, PUT /transactions/:id,
DELETE /transactions/:id).

Modelling conventions:
- A spreadsheet cell is a JavaScript scalar: a string, a number, a boolean,
  `undefined` (absent cell / row shorter than 11), or `NaN`.  JavaScript
  numbers are modelled as exact rationals; the exponent-notation corner of
  `String(n)` for very large or very small magnitudes, the hexadecimal
  `0x` prefix of `parseInt`, the string `"Infinity"` for `parseFloat`,
  and the value `null` (which the Sheets API never places in a row) are
  outside the model.
- `new Date().toISOString()` and `Date.now()` are passed in explicitly as a
  `nowIso : String` / `nowMs : Int` pair, as the handlers take them from a
  single `Date` value.
- Remote I/O is modelled by its observable result: a fetch either fails
  (`none`, covering every exception caught by the `try`/`catch`) or yields
  the list of data rows; a save either fails or replaces the data region of
  the sheet with the encoded transactions (`savedRows`).
- `console.log` / `console.error` calls are pure diagnostics and are omitted.
-/

namespace PTA

/-- A spreadsheet cell value as seen by the JavaScript code. -/
inductive Cell where
  | str (s : String)
  | num (q : ℚ)
  | bool (b : Bool)
  | undef
  | nan
deriving DecidableEq

/-- `row[i]` in JavaScript: `undefined` beyond the end of the array. -/
def getCell (row : List Cell) (i : Nat) : Cell :=
  row.getD i Cell.undef

/-- JavaScript truthiness of a cell value. -/
def truthy : Cell → Bool
  | .str s => !(s == "")
  | .num q => !(q == 0)
  | .bool b => b
  | .undef => false
  | .nan => false

/-- JavaScript `a || b` on cell values. -/
def jsOr (a b : Cell) : Cell :=
  if truthy a then a else b

/-- `parseInt(x) || d`: the default is taken when the parse failed (NaN)
or produced `0`, both of which are falsy. -/
def jsOrInt (o : Option Int) (d : Int) : Int :=
  match o with
  | none => d
  | some n => if n = 0 then d else n

/-- Value of a list of decimal digit characters. -/
def digitsToNat (ds : List Char) : Nat :=
  ds.foldl (fun a c => a * 10 + (c.toNat - '0'.toNat)) 0

/-- JavaScript `parseInt(s)` (radix 10): skip leading whitespace, optional
sign, then the longest prefix of decimal digits; `none` models NaN. -/
def jsParseInt (s : String) : Option Int :=
  let cs := s.data.dropWhile (·.isWhitespace)
  match cs with
  | '-' :: r =>
    let ds := r.takeWhile (·.isDigit)
    if ds.isEmpty then none else some (-(digitsToNat ds : Int))
  | '+' :: r =>
    let ds := r.takeWhile (·.isDigit)
    if ds.isEmpty then none else some (digitsToNat ds : Int)
  | r =>
    let ds := r.takeWhile (·.isDigit)
    if ds.isEmpty then none else some (digitsToNat ds : Int)

/-- JavaScript `parseFloat(s)`: skip leading whitespace, optional sign,
longest prefix of the form `digits[.digits][e[sign]digits]` or
`.digits[e[sign]digits]`; `none` models NaN. -/
def jsParseFloat (s : String) : Option ℚ :=
  let cs := s.data.dropWhile (·.isWhitespace)
  let signed : ℚ × List Char :=
    match cs with
    | '-' :: r => (-1, r)
    | '+' :: r => (1, r)
    | r => (1, r)
  let sign := signed.1
  let cs1 := signed.2
  let intDigits := cs1.takeWhile (·.isDigit)
  let cs2 := cs1.drop intDigits.length
  let fracDigits : List Char :=
    match cs2 with
    | '.' :: r => r.takeWhile (·.isDigit)
    | _ => []
  let cs3 : List Char :=
    match cs2 with
    | '.' :: r => r.drop fracDigits.length
    | _ => cs2
  if intDigits.isEmpty && fracDigits.isEmpty then none
  else
    let mantissa : ℚ :=
      (digitsToNat intDigits : ℚ) + (digitsToNat fracDigits : ℚ) / (10 ^ fracDigits.length)
    let expVal : Int :=
      match cs3 with
      | 'e' :: '-' :: r =>
        let ds := r.takeWhile (·.isDigit)
        if ds.isEmpty then 0 else -(digitsToNat ds : Int)
      | 'e' :: '+' :: r =>
        let ds := r.takeWhile (·.isDigit)
        if ds.isEmpty then 0 else (digitsToNat ds : Int)
      | 'e' :: r =>
        let ds := r.takeWhile (·.isDigit)
        if ds.isEmpty then 0 else (digitsToNat ds : Int)
      | 'E' :: '-' :: r =>
        let ds := r.takeWhile (·.isDigit)
        if ds.isEmpty then 0 else -(digitsToNat ds : Int)
      | 'E' :: '+' :: r =>
        let ds := r.takeWhile (·.isDigit)
        if ds.isEmpty then 0 else (digitsToNat ds : Int)
      | 'E' :: r =>
        let ds := r.takeWhile (·.isDigit)
        if ds.isEmpty then 0 else (digitsToNat ds : Int)
      | _ => 0
    some (sign * mantissa * (10 : ℚ) ^ expVal)

/-- Truncation of a rational toward zero, as `parseInt` applied to the
decimal rendering of a finite JavaScript number. -/
def ratTrunc (q : ℚ) : Int :=
  q.num.tdiv (q.den : Int)

/-- `parseInt(String(x))` for a cell value `x`.  `String` of a number is its
decimal rendering, whose longest digit prefix is the truncated integral
part; `String(true)`, `String(false)`, `String(undefined)` and
`String(NaN)` have no leading digits, so `parseInt` yields NaN. -/
def parseIntOfCell : Cell → Option Int
  | .str s => jsParseInt s
  | .num q => some (ratTrunc q)
  | _ => none

/-- `parseFloat(String(x))` for a cell value `x`: the decimal rendering of a
finite number parses back to the same number. -/
def parseFloatOfCell : Cell → Option ℚ
  | .str s => jsParseFloat s
  | .num q => some q
  | _ => none

/-- The `Transaction` interface of `lib/googleSheets.ts`.  The free-text and
ISO-timestamp fields hold whatever cell value the untyped row supplied
(`rowToTransaction` copies truthy cells through unchanged), so they are
modelled as `Cell`; `id`, `amount`-free numeric fields and `deleted` are
always produced as numbers / booleans by every code path. -/
structure Transaction where
  id : Int
  date : Cell
  type : Cell
  partner : Cell
  description : Cell
  amount : Cell
  deleted : Bool
  createdAt : Cell
  updatedAt : Cell
  createdTimestamp : Int
  updatedTimestamp : Int
deriving DecidableEq

/-- The `LedgerData` interface of `lib/googleSheets.ts`. -/
structure LedgerData where
  transactions : List Transaction
  nextId : Int
  lastUpdated : String
  version : String
deriving DecidableEq

/-- `rowToTransaction(row, index)` of `lib/googleSheets.ts`. -/
def rowToTransaction (nowIso : String) (nowMs : Int) (row : List Cell) (index : Nat) :
    Transaction :=
  let c0 := getCell row 0
  let id : Int :=
    if c0 = Cell.undef ∨ c0 = Cell.str "" then (index : Int) + 1
    else
      match parseIntOfCell c0 with
      | none => (index : Int) + 1
      | some n => n
  { id := id
    date := jsOr (getCell row 1) (Cell.str "")
    type := jsOr (getCell row 2) (Cell.str "")
    partner := jsOr (getCell row 3) (Cell.str "")
    description := jsOr (getCell row 4) (Cell.str "")
    amount := Cell.num ((parseFloatOfCell (getCell row 5)).getD 0)
    deleted := getCell row 6 == Cell.str "TRUE" || getCell row 6 == Cell.bool true
    createdAt := jsOr (getCell row 7) (Cell.str nowIso)
    updatedAt := jsOr (getCell row 8) (Cell.str nowIso)
    createdTimestamp := jsOrInt (parseIntOfCell (getCell row 9)) nowMs
    updatedTimestamp := jsOrInt (parseIntOfCell (getCell row 10)) nowMs }

/-- `transactionToRow(transaction)` of `lib/googleSheets.ts`.  With `id` an
integer, `Number(transaction.id)` is the identity and the `isNaN` branch
only logs; the remaining fields are written to the row unchanged. -/
def transactionToRow (t : Transaction) : List Cell :=
  [ Cell.num (t.id : ℚ), t.date, t.type, t.partner, t.description,
    t.amount, Cell.bool t.deleted, t.createdAt, t.updatedAt,
    Cell.num (t.createdTimestamp : ℚ), Cell.num (t.updatedTimestamp : ℚ) ]

/-- `rows.map((row, index) => rowToTransaction(row, index))`, with the
absolute position threaded as the fallback-identifier seed. -/
def decodeAllFrom (nowIso : String) (nowMs : Int) : Nat → List (List Cell) → List Transaction
  | _, [] => []
  | i, r :: rs => rowToTransaction nowIso nowMs r i :: decodeAllFrom nowIso nowMs (i + 1) rs

/-- The successful-fetch body of `loadDataFromSheets`: decode every row,
compute `nextId = Math.max(...ids, 0) + 1`, filter out soft-deleted
transactions. -/
def loadFromRows (nowIso : String) (nowMs : Int) (rows : List (List Cell)) : LedgerData :=
  let transactions := decodeAllFrom nowIso nowMs 0 rows
  { transactions := transactions.filter (fun t => !t.deleted)
    nextId := (transactions.map Transaction.id).foldr max 0 + 1
    lastUpdated := nowIso
    version := "1.0" }

/-- The three environment values checked by `validateCredentials`. -/
structure SheetsEnv where
  googleSheetId : Option String
  googleClientEmail : Option String
  googlePrivateKey : Option String
deriving DecidableEq

/-- Truthiness of `process.env.X`: the variable is set and nonempty. -/
def envSet : Option String → Bool
  | none => false
  | some s => !(s == "")

/-- `validateCredentials()` of `lib/googleSheets.ts`. -/
def validateCredentials (env : SheetsEnv) : Bool :=
  envSet env.googleSheetId && envSet env.googleClientEmail && envSet env.googlePrivateKey

/-- The fallback snapshot returned by `loadDataFromSheets` on any failure. -/
def emptyLedger (nowIso : String) : LedgerData :=
  { transactions := [], nextId := 1, lastUpdated := nowIso, version := "1.0" }

/-- `loadDataFromSheets()`: `fetched = none` models any exception thrown
inside the `try` block (auth, network, quota); `fetched = some rows` models
a successful read of `Sheet1!A2:K` (with `response.data.values || []`
yielding `rows = []` for an empty sheet). -/
def loadDataFromSheets (env : SheetsEnv) (fetched : Option (List (List Cell)))
    (nowIso : String) (nowMs : Int) : LedgerData :=
  if !validateCredentials env then emptyLedger nowIso
  else
    match fetched with
    | none => emptyLedger nowIso
    | some rows => loadFromRows nowIso nowMs rows

/-- `saveDataToSheets(data)`: `false` when credentials are missing (no I/O
attempted) or when any of the clear/write calls throws; `true` otherwise. -/
def saveDataToSheets (env : SheetsEnv) (ioOk : Bool) (_data : LedgerData) : Bool :=
  if !validateCredentials env then false
  else ioOk

/-- The data region of the sheet after a successful `saveDataToSheets`:
the sheet is cleared and every transaction of the snapshot is written back
in order (below the header row). -/
def savedRows (data : LedgerData) : List (List Cell) :=
  data.transactions.map transactionToRow

/-- A JSON request body, as the fields of `Transaction` it may supply
(`Partial<Transaction>`); unlisted extra keys are unobservable here. -/
structure Body where
  id : Option Int := none
  date : Option Cell := none
  type : Option Cell := none
  partner : Option Cell := none
  description : Option Cell := none
  amount : Option Cell := none
  deleted : Option Bool := none
  createdAt : Option Cell := none
  updatedAt : Option Cell := none
  createdTimestamp : Option Int := none
  updatedTimestamp : Option Int := none
deriving DecidableEq

/-- `Object.assign(transaction, req.body)`: every field supplied by the body
overwrites the record's field. -/
def objAssign (t : Transaction) (b : Body) : Transaction :=
  { id := b.id.getD t.id
    date := b.date.getD t.date
    type := b.type.getD t.type
    partner := b.partner.getD t.partner
    description := b.description.getD t.description
    amount := b.amount.getD t.amount
    deleted := b.deleted.getD t.deleted
    createdAt := b.createdAt.getD t.createdAt
    updatedAt := b.updatedAt.getD t.updatedAt
    createdTimestamp := b.createdTimestamp.getD t.createdTimestamp
    updatedTimestamp := b.updatedTimestamp.getD t.updatedTimestamp }

/-- The in-place mutation performed by the PUT handler on the located
transaction: merge the body, then re-stamp `updatedAt`/`updatedTimestamp`. -/
def applyUpdate (nowIso : String) (nowMs : Int) (b : Body) (t : Transaction) : Transaction :=
  let t2 := objAssign t b
  { t2 with updatedAt := Cell.str nowIso, updatedTimestamp := nowMs }

/-- The in-place mutation performed by the DELETE handler on the located
transaction. -/
def markDeleted (nowIso : String) (nowMs : Int) (t : Transaction) : Transaction :=
  { t with deleted := true, updatedAt := Cell.str nowIso, updatedTimestamp := nowMs }

/-- JavaScript's `find`-then-mutate on an array of objects: the first
element satisfying the predicate is replaced by its mutated version. -/
def mutateFirst (p : Transaction → Bool) (f : Transaction → Transaction) :
    List Transaction → List Transaction
  | [] => []
  | t :: ts => if p t then f t :: ts else t :: mutateFirst p f ts

/-- The in-memory effect of `app.put('/transactions/:id')` on a loaded
snapshot: `none` models the structured 404 not-found response, returned
before any save is attempted. -/
def updateTransaction (nowIso : String) (nowMs : Int) (body : Body) (tid : Int)
    (data : LedgerData) : Option LedgerData :=
  match data.transactions.find? (fun t => t.id == tid) with
  | none => none
  | some _ =>
    some { data with
      transactions := mutateFirst (fun t => t.id == tid) (applyUpdate nowIso nowMs body)
        data.transactions
      lastUpdated := nowIso }

/-- The in-memory effect of `app.delete('/transactions/:id')` on a loaded
snapshot: `none` models the structured 404 not-found response, returned
before any save is attempted. -/
def deleteTransaction (nowIso : String) (nowMs : Int) (tid : Int)
    (data : LedgerData) : Option LedgerData :=
  match data.transactions.find? (fun t => t.id == tid) with
  | none => none
  | some _ =>
    some { data with
      transactions := mutateFirst (fun t => t.id == tid) (markDeleted nowIso nowMs)
        data.transactions
      lastUpdated := nowIso }

/-- The in-memory effect of `app.post('/transactions')`: spread the body,
then override `id` with `data.nextId++` and stamp the bookkeeping fields;
append the new transaction.  Fields the body does not supply are left
`undefined` by the spread. -/
def createTransaction (nowIso : String) (nowMs : Int) (body : Body) (data : LedgerData) :
    LedgerData × Transaction :=
  let t : Transaction :=
    { id := data.nextId
      date := body.date.getD Cell.undef
      type := body.type.getD Cell.undef
      partner := body.partner.getD Cell.undef
      description := body.description.getD Cell.undef
      amount := body.amount.getD Cell.undef
      deleted := false
      createdAt := Cell.str nowIso
      updatedAt := Cell.str nowIso
      createdTimestamp := nowMs
      updatedTimestamp := nowMs }
  ({ data with
      transactions := data.transactions ++ [t]
      nextId := data.nextId + 1
      lastUpdated := nowIso }, t)

/-- End-to-end store effect of one PUT request (configured credentials,
successful I/O): on not-found the handler responds before calling
`saveDataToSheets`, so the sheet is untouched. -/
def putStoreEffect (loadIso : String) (loadMs : Int) (updIso : String) (updMs : Int)
    (body : Body) (tid : Int) (rows : List (List Cell)) : List (List Cell) :=
  match updateTransaction updIso updMs body tid (loadFromRows loadIso loadMs rows) with
  | none => rows
  | some d => savedRows d

/-- End-to-end store effect of one DELETE request (configured credentials,
successful I/O). -/
def deleteStoreEffect (loadIso : String) (loadMs : Int) (delIso : String) (delMs : Int)
    (tid : Int) (rows : List (List Cell)) : List (List Cell) :=
  match deleteTransaction delIso delMs tid (loadFromRows loadIso loadMs rows) with
  | none => rows
  | some d => savedRows d

/-- A well-formed stored row: eleven cells of the types `transactionToRow`
writes, with an integral identifier, nonempty ISO-timestamp strings and
nonzero epoch timestamps. -/
def WellFormedRow (row : List Cell) : Prop :=
  ∃ (idN : Int) (d ty pa de : String) (amt : ℚ) (del : Bool) (ca ua : String) (ct ut : Int),
    ca ≠ "" ∧ ua ≠ "" ∧ ct ≠ 0 ∧ ut ≠ 0 ∧
    row = [Cell.num (idN : ℚ), Cell.str d, Cell.str ty, Cell.str pa, Cell.str de,
           Cell.num amt, Cell.bool del, Cell.str ca, Cell.str ua,
           Cell.num (ct : ℚ), Cell.num (ut : ℚ)]

section Lemmas

/-- Truncation is the identity on integers. -/
lemma ratTrunc_intCast (n : Int) : ratTrunc (n : ℚ) = n := by
  simp [ratTrunc, Rat.num_intCast, Rat.den_intCast, Int.tdiv_one]

/-- `s || ''` is the identity on strings. -/
lemma jsOr_str_self (s : String) : jsOr (Cell.str s) (Cell.str "") = Cell.str s := by
  unfold jsOr truthy
  by_cases h : s = "" <;> simp [h]

/-- Every member of a list is bounded by a fold of `max` over it. -/
lemma le_foldr_max (l : List Int) (a : Int) :
    ∀ x ∈ l, x ≤ l.foldr max a := by
  induction l with
  | nil => intro x hx; cases hx
  | cons y ys ih =>
    intro x hx
    rcases List.mem_cons.mp hx with rfl | hx
    · exact le_max_left _ _
    · exact le_trans (ih x hx) (le_max_right _ _)

/-- The initial value is bounded by a fold of `max`. -/
lemma init_le_foldr_max (l : List Int) (a : Int) : a ≤ l.foldr max a := by
  induction l with
  | nil => exact le_refl a
  | cons y ys ih => exact le_trans ih (le_max_right _ _)

/-- A fold of `max` over a list with initial value `0` is either `0` or a
member of the list. -/
lemma foldr_max_mem (l : List Int) : l.foldr max 0 = 0 ∨ l.foldr max 0 ∈ l := by
  induction l with
  | nil => exact Or.inl rfl
  | cons y ys ih =>
    rcases max_choice y (ys.foldr max 0) with h | h
    · refine Or.inr ?_
      show max y (ys.foldr max 0) ∈ y :: ys
      rw [h]
      exact List.mem_cons_self _ _
    · rcases ih with h0 | hm
      · refine Or.inl ?_
        show max y (ys.foldr max 0) = 0
        rw [h, h0]
      · refine Or.inr ?_
        show max y (ys.foldr max 0) ∈ y :: ys
        rw [h]
        exact List.mem_cons_of_mem _ hm

/-- Every member of a mutated list is an original member or the image of an
original member under the mutation. -/
lemma mem_mutateFirst {p : Transaction → Bool} {f : Transaction → Transaction}
    {l : List Transaction} {t' : Transaction} (h : t' ∈ mutateFirst p f l) :
    t' ∈ l ∨ ∃ t ∈ l, p t = true ∧ t' = f t := by
  induction l with
  | nil => simp [mutateFirst] at h
  | cons x xs ih =>
    by_cases hp : p x = true
    · simp only [mutateFirst, hp, if_true] at h
      rcases List.mem_cons.mp h with h | h
      · exact Or.inr ⟨x, List.mem_cons_self _ _, hp, h⟩
      · exact Or.inl (List.mem_cons_of_mem _ h)
    · simp only [mutateFirst, hp, if_false] at h
      rcases List.mem_cons.mp h with h | h
      · exact Or.inl (h ▸ List.mem_cons_self _ _)
      · rcases ih h with h' | ⟨t, ht, hpt, rfl⟩
        · exact Or.inl (List.mem_cons_of_mem _ h')
        · exact Or.inr ⟨t, List.mem_cons_of_mem _ ht, hpt, rfl⟩

/-- A successful `find?` splits the list around the first match, and
`mutateFirst` with the same predicate rewrites exactly that element,
leaving the prefix and the suffix untouched. -/
lemma find?_mutateFirst_split {p : Transaction → Bool} {f : Transaction → Transaction}
    {l : List Transaction} {t0 : Transaction} (h : l.find? p = some t0) :
    ∃ pre post, l = pre ++ t0 :: post ∧ (∀ u ∈ pre, p u = false) ∧
      mutateFirst p f l = pre ++ f t0 :: post := by
  induction l with
  | nil => cases h
  | cons x xs ih =>
    by_cases hp : p x = true
    · rw [List.find?_cons_of_pos _ hp] at h
      injection h with h
      subst h
      refine ⟨[], xs, rfl, ?_, by simp [mutateFirst, hp]⟩
      intro u hu
      cases hu
    · have hp' : p x = false := by simpa using hp
      rw [List.find?_cons_of_neg _ hp] at h
      rcases ih h with ⟨pre, post, hsplit, hpre, hmut⟩
      refine ⟨x :: pre, post, ?_, ?_, ?_⟩
      · rw [hsplit]
        rfl
      · intro u hu
        rcases List.mem_cons.mp hu with rfl | hu
        · exact hp'
        · exact hpre u hu
      · simp [mutateFirst, hp', hmut]

/-- After marking the first transaction with identifier `X` deleted, every
transaction still carrying identifier `X` is deleted, provided identifiers
were pairwise distinct. -/
lemma mutateFirst_markDeleted_all (dIso : String) (dMs : Int) (X : Int) :
    ∀ (l : List Transaction), (l.map Transaction.id).Nodup →
      ∀ t ∈ mutateFirst (fun t => t.id == X) (markDeleted dIso dMs) l,
        t.id = X → t.deleted = true := by
  intro l
  induction l with
  | nil => intro _ t ht; cases ht
  | cons x xs ih =>
    intro hnd t ht hid
    have hx : x.id ∉ xs.map Transaction.id := (List.nodup_cons.mp hnd).1
    have hxs : (xs.map Transaction.id).Nodup := (List.nodup_cons.mp hnd).2
    by_cases hp : (x.id == X) = true
    · have hxX : x.id = X := by simpa using hp
      simp only [mutateFirst, hp, if_true] at ht
      rcases List.mem_cons.mp ht with rfl | ht
      · rfl
      · have hmem : x.id ∈ xs.map Transaction.id := by
          rw [hxX, ← hid]
          exact List.mem_map_of_mem Transaction.id ht
        exact absurd hmem hx
    · simp only [mutateFirst, hp, if_false] at ht
      rcases List.mem_cons.mp ht with rfl | ht
      · exact absurd hid (by simpa using hp)
      · exact ih hxs t ht hid

/-- Decoding an encoded transaction recovers its identifier. -/
lemma decode_encode_id (nowIso : String) (nowMs : Int) (t : Transaction) (i : Nat) :
    (rowToTransaction nowIso nowMs (transactionToRow t) i).id = t.id := by
  simp [rowToTransaction, transactionToRow, getCell, parseIntOfCell, ratTrunc_intCast]

/-- Decoding an encoded transaction recovers its deleted flag. -/
lemma decode_encode_deleted (nowIso : String) (nowMs : Int) (t : Transaction) (i : Nat) :
    (rowToTransaction nowIso nowMs (transactionToRow t) i).deleted = t.deleted := by
  cases h : t.deleted <;>
    simp [rowToTransaction, transactionToRow, getCell, h]

/-- Decoding the saved rows of a snapshot reproduces the identifier and the
deleted flag of every transaction, in order. -/
lemma decodeAllFrom_encode (nowIso : String) (nowMs : Int) :
    ∀ (l : List Transaction) (i : Nat),
      (decodeAllFrom nowIso nowMs i (l.map transactionToRow)).map
          (fun t => (t.id, t.deleted)) =
        l.map (fun t => (t.id, t.deleted)) := by
  intro l
  induction l with
  | nil => intro i; rfl
  | cons x xs ih =>
    intro i
    simp only [List.map_cons, decodeAllFrom, ih (i + 1)]
    rw [decode_encode_id, decode_encode_deleted]

/-- Membership in the visible transaction list of a loaded snapshot. -/
lemma mem_loadFromRows {nowIso : String} {nowMs : Int} {rows : List (List Cell)}
    {t : Transaction} :
    t ∈ (loadFromRows nowIso nowMs rows).transactions ↔
      t ∈ decodeAllFrom nowIso nowMs 0 rows ∧ t.deleted = false := by
  simp [loadFromRows, List.mem_filter]

/-- If no visible transaction carries the target identifier, the handlers'
`find` fails. -/
lemma find?_id_eq_none {l : List Transaction} {tid : Int}
    (h : ∀ t ∈ l, t.id ≠ tid) : l.find? (fun t => t.id == tid) = none := by
  apply List.find?_eq_none.mpr
  intro t ht
  simpa using h t ht

/-- Both mutation handlers report not-found and leave the store untouched
when the loaded snapshot holds no transaction with the target identifier. -/
lemma mutations_none_of_no_visible (loadIso updIso delIso : String)
    (loadMs updMs delMs : Int) (body : Body) (tid : Int) (rows : List (List Cell))
    (h : ∀ t ∈ (loadFromRows loadIso loadMs rows).transactions, t.id ≠ tid) :
    updateTransaction updIso updMs body tid (loadFromRows loadIso loadMs rows) = none ∧
    deleteTransaction delIso delMs tid (loadFromRows loadIso loadMs rows) = none ∧
    putStoreEffect loadIso loadMs updIso updMs body tid rows = rows ∧
    deleteStoreEffect loadIso loadMs delIso delMs tid rows = rows := by
  have hf := find?_id_eq_none h
  have hu : updateTransaction updIso updMs body tid (loadFromRows loadIso loadMs rows)
      = none := by
    unfold updateTransaction
    rw [hf]
  have hd : deleteTransaction delIso delMs tid (loadFromRows loadIso loadMs rows)
      = none := by
    unfold deleteTransaction
    rw [hf]
  refine ⟨hu, hd, ?_, ?_⟩
  · unfold putStoreEffect
    rw [hu]
  · unfold deleteStoreEffect
    rw [hd]

end Lemmas

/-- C5: for every row whose first cell is present, nonempty and parseable,
the decoded identifier is the parsed number, for every positional index;
for every row whose first cell is missing (`undefined`), the empty string,
or unparseable, the decoded identifier falls back to `index + 1`. -/
theorem c5_decode_id (row : List Cell) (i : Nat) (nowIso : String) (nowMs : Int) :
    (∀ n : Int, getCell row 0 ≠ Cell.undef → getCell row 0 ≠ Cell.str "" →
      parseIntOfCell (getCell row 0) = some n →
      (rowToTransaction nowIso nowMs row i).id = n) ∧
    (getCell row 0 = Cell.undef ∨ getCell row 0 = Cell.str "" ∨
        parseIntOfCell (getCell row 0) = none →
      (rowToTransaction nowIso nowMs row i).id = (i : Int) + 1) := by
  constructor
  · intro n h0 h1 hp
    simp only [rowToTransaction]
    rw [if_neg (by tauto), hp]
  · intro h
    rcases h with h | h | h
    · simp only [rowToTransaction]
      rw [if_pos (Or.inl h)]
    · simp only [rowToTransaction]
      rw [if_pos (Or.inr h)]
    · simp only [rowToTransaction]
      by_cases h01 : getCell row 0 = Cell.undef ∨ getCell row 0 = Cell.str ""
      · rw [if_pos h01]
      · rw [if_neg h01, h]

/-- C5 witness: a numeric first cell decodes to its parsed value at any
index; an empty row falls back to `index + 1`. -/
theorem c5_decode_id_witness :
    parseIntOfCell (getCell [Cell.str "42"] 0) = some 42 ∧
    (rowToTransaction "N" 0 [Cell.str "42"] 9).id = 42 ∧
    (rowToTransaction "N" 0 [] 9).id = ((9 : Nat) : Int) + 1 := by
  have hp : parseIntOfCell (getCell [Cell.str "42"] 0) = some 42 := by decide
  refine ⟨hp, (c5_decode_id [Cell.str "42"] 9 "N" 0).1 42 (by decide) (by decide) hp, ?_⟩
  exact (c5_decode_id [] 9 "N" 0).2 (Or.inl (by decide))

/-- C6: neither load nor save propagates a failure.  When credentials are
missing or the remote read throws, `loadDataFromSheets` returns the empty
snapshot `{transactions: [], nextId: 1, version: "1.0"}`; when credentials
are missing or any remote write throws, `saveDataToSheets` returns `false`.
(Both functions are total, so no exception ever reaches the caller.) -/
theorem c6_failures_fallback (env : SheetsEnv) (fetched : Option (List (List Cell)))
    (ioOk : Bool) (data : LedgerData) (nowIso : String) (nowMs : Int) :
    (validateCredentials env = false ∨ fetched = none →
      loadDataFromSheets env fetched nowIso nowMs =
        { transactions := [], nextId := 1, lastUpdated := nowIso, version := "1.0" }) ∧
    (validateCredentials env = false ∨ ioOk = false →
      saveDataToSheets env ioOk data = false) := by
  constructor
  · intro h
    rcases h with h | h
    · simp [loadDataFromSheets, h, emptyLedger]
    · subst h
      by_cases hv : validateCredentials env <;>
        simp [loadDataFromSheets, hv, emptyLedger]
  · intro h
    rcases h with h | h
    · simp [saveDataToSheets, h]
    · subst h
      by_cases hv : validateCredentials env <;> simp [saveDataToSheets, hv]

/-- C6 witness: with no environment configured, load falls back to the
empty snapshot and save reports `false`. -/
theorem c6_failures_fallback_witness :
    validateCredentials ⟨none, none, none⟩ = false ∧
    loadDataFromSheets ⟨none, none, none⟩ (some [[Cell.num 1]]) "N" 5 =
      { transactions := [], nextId := 1, lastUpdated := "N", version := "1.0" } ∧
    saveDataToSheets ⟨none, none, none⟩ true (emptyLedger "E") = false := by
  have hv : validateCredentials (⟨none, none, none⟩ : SheetsEnv) = false := by decide
  exact ⟨hv,
    (c6_failures_fallback ⟨none, none, none⟩ (some [[Cell.num 1]]) true (emptyLedger "E")
      "N" 5).1 (Or.inl hv),
    (c6_failures_fallback ⟨none, none, none⟩ (some [[Cell.num 1]]) true (emptyLedger "E")
      "N" 5).2 (Or.inl hv)⟩

/-- C7: the created transaction's identifier equals the `nextId` of the
snapshot produced by the create handler's own prior load — for every
request body, including bodies that supply an `id` field, since the spread
`{...req.body, id: data.nextId++, ...}` overrides it — its `deleted` flag
is `false`, it is appended at the end of the sequence, and the in-memory
`nextId` is incremented. -/
theorem c7_create_assigns_nextId (env : SheetsEnv) (fetched : Option (List (List Cell)))
    (body : Body) (loadIso nowIso : String) (loadMs nowMs : Int) :
    (createTransaction nowIso nowMs body
        (loadDataFromSheets env fetched loadIso loadMs)).2.id =
      (loadDataFromSheets env fetched loadIso loadMs).nextId ∧
    (createTransaction nowIso nowMs body
        (loadDataFromSheets env fetched loadIso loadMs)).2.deleted = false ∧
    (createTransaction nowIso nowMs body
        (loadDataFromSheets env fetched loadIso loadMs)).1.transactions =
      (loadDataFromSheets env fetched loadIso loadMs).transactions ++
        [(createTransaction nowIso nowMs body
          (loadDataFromSheets env fetched loadIso loadMs)).2] ∧
    (createTransaction nowIso nowMs body
        (loadDataFromSheets env fetched loadIso loadMs)).1.nextId =
      (loadDataFromSheets env fetched loadIso loadMs).nextId + 1 :=
  ⟨rfl, rfl, rfl, rfl⟩

/-- C8: a PUT or DELETE whose identifier matches no transaction in the
loaded snapshot returns the structured not-found result (modelled `none`,
produced before `saveDataToSheets` is ever called) and leaves the store
rows exactly as they were. -/
theorem c8_not_found_no_write (loadIso updIso delIso : String)
    (loadMs updMs delMs : Int) (body : Body) (tid : Int) (rows : List (List Cell))
    (h : ∀ t ∈ (loadFromRows loadIso loadMs rows).transactions, t.id ≠ tid) :
    updateTransaction updIso updMs body tid (loadFromRows loadIso loadMs rows) = none ∧
    deleteTransaction delIso delMs tid (loadFromRows loadIso loadMs rows) = none ∧
    putStoreEffect loadIso loadMs updIso updMs body tid rows = rows ∧
    deleteStoreEffect loadIso loadMs delIso delMs tid rows = rows :=
  mutations_none_of_no_visible loadIso updIso delIso loadMs updMs delMs body tid rows h

/-- C8 witness: with a single stored transaction of identifier 1, PUT and
DELETE of identifier 2 report not-found and do not change the store. -/
theorem c8_not_found_no_write_witness :
    (∀ t ∈ (loadFromRows "L" 100 [[Cell.num 1]]).transactions, t.id ≠ 2) ∧
    updateTransaction "U" 200 {} 2 (loadFromRows "L" 100 [[Cell.num 1]]) = none ∧
    deleteTransaction "D" 300 2 (loadFromRows "L" 100 [[Cell.num 1]]) = none ∧
    putStoreEffect "L" 100 "U" 200 {} 2 [[Cell.num 1]] = [[Cell.num 1]] ∧
    deleteStoreEffect "L" 100 "D" 300 2 [[Cell.num 1]] = [[Cell.num 1]] := by
  have h : ∀ t ∈ (loadFromRows "L" 100 [[Cell.num 1]]).transactions, t.id ≠ 2 := by decide
  exact ⟨h, c8_not_found_no_write "L" "U" "D" 100 200 300 {} 2 [[Cell.num 1]] h⟩

/-- C2 counterexample: a stored row whose identifier cell parses to `-5`
decodes to identifier `-5`, yet the computed `nextId` is `1`, not
`1 + (-5) = -4` — `nextId` is not one plus the maximum identifier, because
`Math.max(...ids, 0)` clamps the maximum at `0`. -/
theorem c2_counterexample :
    (decodeAllFrom "N" 0 0 [[Cell.str "-5"]]).map Transaction.id = [-5] ∧
    (loadFromRows "N" 0 [[Cell.str "-5"]]).nextId = 1 ∧
    (1 : Int) ≠ -5 + 1 := by decide

/-- C2 (amended): `nextId` equals one plus the maximum of `0` and all
decoded identifiers (soft-deleted ones included): it is at least `1`,
strictly greater than every decoded identifier, equal to some identifier
plus one whenever it is not `1`, and equal to `1` on an empty store. -/
theorem c2_nextId_exceeds_ids (nowIso : String) (nowMs : Int) (rows : List (List Cell)) :
    1 ≤ (loadFromRows nowIso nowMs rows).nextId ∧
    (∀ t ∈ decodeAllFrom nowIso nowMs 0 rows,
      t.id < (loadFromRows nowIso nowMs rows).nextId) ∧
    ((loadFromRows nowIso nowMs rows).nextId = 1 ∨
      ∃ t ∈ decodeAllFrom nowIso nowMs 0 rows,
        (loadFromRows nowIso nowMs rows).nextId = t.id + 1) ∧
    (loadFromRows nowIso nowMs []).nextId = 1 := by
  have hN : (loadFromRows nowIso nowMs rows).nextId
      = ((decodeAllFrom nowIso nowMs 0 rows).map Transaction.id).foldr max 0 + 1 := rfl
  refine ⟨?_, ?_, ?_, by show (0 : Int) + 1 = 1; omega⟩
  · rw [hN]
    have := init_le_foldr_max ((decodeAllFrom nowIso nowMs 0 rows).map Transaction.id) 0
    omega
  · intro t ht
    rw [hN]
    have := le_foldr_max ((decodeAllFrom nowIso nowMs 0 rows).map Transaction.id) 0 t.id
      (List.mem_map_of_mem Transaction.id ht)
    omega
  · rw [hN]
    rcases foldr_max_mem ((decodeAllFrom nowIso nowMs 0 rows).map Transaction.id) with h0 | hm
    · refine Or.inl ?_
      rw [h0]
      omega
    · rcases List.mem_map.mp hm with ⟨t, ht, hid⟩
      exact Or.inr ⟨t, ht, by rw [← hid]⟩

/-- C2 witness: with one stored row of identifier 5, the decoded
transaction's identifier is below the computed `nextId`. -/
theorem c2_nextId_exceeds_ids_witness :
    rowToTransaction "N" 0 [Cell.num 5] 0 ∈ decodeAllFrom "N" 0 0 [[Cell.num 5]] ∧
    (rowToTransaction "N" 0 [Cell.num 5] 0).id < (loadFromRows "N" 0 [[Cell.num 5]]).nextId := by
  have hm : rowToTransaction "N" 0 [Cell.num 5] 0 ∈ decodeAllFrom "N" 0 0 [[Cell.num 5]] := by
    decide
  exact ⟨hm, (c2_nextId_exceeds_ids "N" 0 [[Cell.num 5]]).2.1 _ hm⟩

/-- C4 counterexample: a row whose cell 9 is the present string `"0"`
(which parses to the integer `0`) still gets the current epoch millis as
`createdTimestamp`, and a row whose cell 7 is the present empty string
still gets the current ISO time as `createdAt` — because `|| Date.now()`
and `|| new Date().toISOString()` treat any falsy value as absent. -/
theorem c4_counterexample :
    (rowToTransaction "NOW" 999
        [Cell.undef, Cell.undef, Cell.undef, Cell.undef, Cell.undef, Cell.undef,
         Cell.undef, Cell.str "", Cell.undef, Cell.str "0", Cell.undef] 0).createdTimestamp
      = 999 ∧
    parseIntOfCell (Cell.str "0") = some 0 ∧
    (rowToTransaction "NOW" 999
        [Cell.undef, Cell.undef, Cell.undef, Cell.undef, Cell.undef, Cell.undef,
         Cell.undef, Cell.str "", Cell.undef, Cell.str "0", Cell.undef] 0).createdAt
      = Cell.str "NOW" ∧
    (999 : Int) ≠ 0 ∧ Cell.str "" ≠ Cell.undef := by decide

/-- C4 (amended): decode preserves the integer timestamp cells (row 9,
row 10) exactly when they parse to a nonzero integer, substituting the
current epoch millis when they are absent, unparseable, or parse to zero;
the string timestamp cells (row 7, row 8) are kept exactly when truthy
(present and nonempty) and default to the current ISO time otherwise. -/
theorem c4_timestamp_defaults (row : List Cell) (i : Nat) (nowIso : String) (nowMs : Int) :
    (∀ n : Int, n ≠ 0 → parseIntOfCell (getCell row 9) = some n →
      (rowToTransaction nowIso nowMs row i).createdTimestamp = n) ∧
    (parseIntOfCell (getCell row 9) = none ∨ parseIntOfCell (getCell row 9) = some 0 →
      (rowToTransaction nowIso nowMs row i).createdTimestamp = nowMs) ∧
    (∀ n : Int, n ≠ 0 → parseIntOfCell (getCell row 10) = some n →
      (rowToTransaction nowIso nowMs row i).updatedTimestamp = n) ∧
    (parseIntOfCell (getCell row 10) = none ∨ parseIntOfCell (getCell row 10) = some 0 →
      (rowToTransaction nowIso nowMs row i).updatedTimestamp = nowMs) ∧
    (truthy (getCell row 7) = true →
      (rowToTransaction nowIso nowMs row i).createdAt = getCell row 7) ∧
    (truthy (getCell row 7) = false →
      (rowToTransaction nowIso nowMs row i).createdAt = Cell.str nowIso) ∧
    (truthy (getCell row 8) = true →
      (rowToTransaction nowIso nowMs row i).updatedAt = getCell row 8) ∧
    (truthy (getCell row 8) = false →
      (rowToTransaction nowIso nowMs row i).updatedAt = Cell.str nowIso) := by
  refine ⟨?_, ?_, ?_, ?_, ?_, ?_, ?_, ?_⟩
  · intro n hn hp
    simp only [rowToTransaction]
    rw [hp]
    simp [jsOrInt, hn]
  · intro h
    simp only [rowToTransaction]
    rcases h with h | h <;> rw [h] <;> simp [jsOrInt]
  · intro n hn hp
    simp only [rowToTransaction]
    rw [hp]
    simp [jsOrInt, hn]
  · intro h
    simp only [rowToTransaction]
    rcases h with h | h <;> rw [h] <;> simp [jsOrInt]
  · intro h
    simp only [rowToTransaction]
    simp [jsOr, h]
  · intro h
    simp only [rowToTransaction]
    simp [jsOr, h]
  · intro h
    simp only [rowToTransaction]
    simp [jsOr, h]
  · intro h
    simp only [rowToTransaction]
    simp [jsOr, h]

/-- C4 witness: a cell 9 holding the number 77 is preserved as
`createdTimestamp`. -/
theorem c4_timestamp_defaults_witness :
    parseIntOfCell (getCell [Cell.undef, Cell.undef, Cell.undef, Cell.undef, Cell.undef,
        Cell.undef, Cell.undef, Cell.undef, Cell.undef, Cell.num 77] 9) = some 77 ∧
    (77 : Int) ≠ 0 ∧
    (rowToTransaction "N" 5 [Cell.undef, Cell.undef, Cell.undef, Cell.undef, Cell.undef,
        Cell.undef, Cell.undef, Cell.undef, Cell.undef, Cell.num 77] 0).createdTimestamp
      = 77 := by
  have hp : parseIntOfCell (getCell [Cell.undef, Cell.undef, Cell.undef, Cell.undef,
      Cell.undef, Cell.undef, Cell.undef, Cell.undef, Cell.undef, Cell.num 77] 9)
      = some 77 := by decide
  exact ⟨hp, by decide,
    (c4_timestamp_defaults [Cell.undef, Cell.undef, Cell.undef, Cell.undef, Cell.undef,
      Cell.undef, Cell.undef, Cell.undef, Cell.undef, Cell.num 77] 0 "N" 5).1 77
      (by decide) hp⟩

/-- C10 counterexample: a store holding a soft-deleted row with identifier
7 and a second, non-deleted row with the same identifier: PUT and DELETE on
identifier 7 do not report not-found (they locate the non-deleted
duplicate), so an update or soft-delete on the identifier of a deleted
transaction does not always fail. -/
theorem c10_counterexample :
    (decodeAllFrom "L" 100 0
        [[Cell.num 7, Cell.undef, Cell.undef, Cell.undef, Cell.undef, Cell.undef,
          Cell.bool true],
         [Cell.num 7]]).map (fun t => (t.id, t.deleted)) = [(7, true), (7, false)] ∧
    updateTransaction "U" 200 {} 7
      (loadFromRows "L" 100
        [[Cell.num 7, Cell.undef, Cell.undef, Cell.undef, Cell.undef, Cell.undef,
          Cell.bool true],
         [Cell.num 7]]) ≠ none ∧
    deleteTransaction "D" 300 7
      (loadFromRows "L" 100
        [[Cell.num 7, Cell.undef, Cell.undef, Cell.undef, Cell.undef, Cell.undef,
          Cell.bool true],
         [Cell.num 7]]) ≠ none := by decide

/-- C10 (amended): when every stored transaction bearing identifier `X` is
soft-deleted, every update and every soft-delete targeting `X` reports
not-found and performs no write — the load filters the deleted
transactions out before the mutation searches the snapshot, so a
soft-deleted record can never be modified or un-deleted. -/
theorem c10_deleted_never_mutable (loadIso updIso delIso : String)
    (loadMs updMs delMs : Int) (body : Body) (X : Int) (rows : List (List Cell))
    (h : ∀ t ∈ decodeAllFrom loadIso loadMs 0 rows, t.id = X → t.deleted = true) :
    updateTransaction updIso updMs body X (loadFromRows loadIso loadMs rows) = none ∧
    deleteTransaction delIso delMs X (loadFromRows loadIso loadMs rows) = none ∧
    putStoreEffect loadIso loadMs updIso updMs body X rows = rows ∧
    deleteStoreEffect loadIso loadMs delIso delMs X rows = rows := by
  apply mutations_none_of_no_visible
  intro t ht hid
  have hmem := mem_loadFromRows.mp ht
  have hd := h t hmem.1 hid
  rw [hmem.2] at hd
  cases hd

/-- C10 witness: the sole stored transaction of identifier 3 is
soft-deleted; PUT and DELETE on identifier 3 report not-found and leave the
store unchanged. -/
theorem c10_deleted_never_mutable_witness :
    (∀ t ∈ decodeAllFrom "L" 100 0
        [[Cell.num 3, Cell.undef, Cell.undef, Cell.undef, Cell.undef, Cell.undef,
          Cell.bool true]],
      t.id = 3 → t.deleted = true) ∧
    updateTransaction "U" 200 {} 3
      (loadFromRows "L" 100
        [[Cell.num 3, Cell.undef, Cell.undef, Cell.undef, Cell.undef, Cell.undef,
          Cell.bool true]]) = none ∧
    deleteTransaction "D" 300 3
      (loadFromRows "L" 100
        [[Cell.num 3, Cell.undef, Cell.undef, Cell.undef, Cell.undef, Cell.undef,
          Cell.bool true]]) = none ∧
    putStoreEffect "L" 100 "U" 200 {} 3
      [[Cell.num 3, Cell.undef, Cell.undef, Cell.undef, Cell.undef, Cell.undef,
        Cell.bool true]] =
      [[Cell.num 3, Cell.undef, Cell.undef, Cell.undef, Cell.undef, Cell.undef,
        Cell.bool true]] ∧
    deleteStoreEffect "L" 100 "D" 300 3
      [[Cell.num 3, Cell.undef, Cell.undef, Cell.undef, Cell.undef, Cell.undef,
        Cell.bool true]] =
      [[Cell.num 3, Cell.undef, Cell.undef, Cell.undef, Cell.undef, Cell.undef,
        Cell.bool true]] := by
  have h : ∀ t ∈ decodeAllFrom "L" 100 0
      [[Cell.num 3, Cell.undef, Cell.undef, Cell.undef, Cell.undef, Cell.undef,
        Cell.bool true]],
      t.id = 3 → t.deleted = true := by decide
  exact ⟨h, c10_deleted_never_mutable "L" "U" "D" 100 200 300 {} 3
    [[Cell.num 3, Cell.undef, Cell.undef, Cell.undef, Cell.undef, Cell.undef,
      Cell.bool true]] h⟩

/-- A sample stored transaction used to instantiate the handler theorems. -/
def sampleTransaction : Transaction :=
  { id := 1, date := Cell.str "d", type := Cell.str "t", partner := Cell.str "p",
    description := Cell.str "de", amount := Cell.num 5, deleted := false,
    createdAt := Cell.str "c", updatedAt := Cell.str "u",
    createdTimestamp := 10, updatedTimestamp := 20 }

/-- A sample loaded snapshot holding `sampleTransaction`. -/
def sampleData : LedgerData :=
  { transactions := [sampleTransaction], nextId := 2, lastUpdated := "L",
    version := "1.0" }

/-- A sample update body supplying only the `date` field. -/
def dateOnlyBody : Body := { date := some (Cell.str "x") }

/-- `sampleData` after `updateTransaction "U" 7 dateOnlyBody 1`. -/
def sampleDataUpdated : LedgerData :=
  { transactions :=
      [{ id := 1, date := Cell.str "x", type := Cell.str "t", partner := Cell.str "p",
         description := Cell.str "de", amount := Cell.num 5, deleted := false,
         createdAt := Cell.str "c", updatedAt := Cell.str "U",
         createdTimestamp := 10, updatedTimestamp := 7 }],
    nextId := 2, lastUpdated := "U", version := "1.0" }

/-- C1 counterexample: a request body supplying `id: 99` changes the
located transaction's identifier from 1 to 99 — `Object.assign(transaction,
req.body)` overwrites every field the body supplies, `id`, `createdAt` and
`createdTimestamp` included, so the update does not leave them unchanged
for every request body. -/
theorem c1_counterexample :
    (updateTransaction "U" 7 { id := some 99 } 1 sampleData).map
        (fun d => d.transactions.map Transaction.id) = some [99] ∧
    sampleData.transactions.map Transaction.id = [1] ∧ (99 : Int) ≠ 1 := by decide

/-- C1 (amended): a successful update changes exactly the located
transaction — the first one carrying the target identifier — and leaves
every other record, and the order of the sequence, untouched; on the
located transaction, every field the body does not supply is left
unchanged, except `updatedAt` and `updatedTimestamp`, which are
re-stamped; in particular `id`, `createdAt` and `createdTimestamp` are
unchanged whenever the body does not supply them. -/
theorem c1_update_frame (nowIso : String) (nowMs : Int) (body : Body) (tid : Int)
    (data data' : LedgerData)
    (h : updateTransaction nowIso nowMs body tid data = some data') :
    ∃ pre post t t',
      data.transactions = pre ++ t :: post ∧
      (∀ u ∈ pre, u.id ≠ tid) ∧
      t.id = tid ∧
      data'.transactions = pre ++ t' :: post ∧
      t'.updatedAt = Cell.str nowIso ∧
      t'.updatedTimestamp = nowMs ∧
      (body.id = none → t'.id = t.id) ∧
      (body.createdAt = none → t'.createdAt = t.createdAt) ∧
      (body.createdTimestamp = none → t'.createdTimestamp = t.createdTimestamp) ∧
      (body.date = none → t'.date = t.date) ∧
      (body.type = none → t'.type = t.type) ∧
      (body.partner = none → t'.partner = t.partner) ∧
      (body.description = none → t'.description = t.description) ∧
      (body.amount = none → t'.amount = t.amount) ∧
      (body.deleted = none → t'.deleted = t.deleted) := by
  unfold updateTransaction at h
  cases hf : data.transactions.find? (fun t => t.id == tid) with
  | none =>
    rw [hf] at h
    cases h
  | some t0 =>
    rw [hf] at h
    injection h with h
    subst h
    rcases find?_mutateFirst_split (f := applyUpdate nowIso nowMs body) hf with
      ⟨pre, post, hsplit, hpre, hmut⟩
    refine ⟨pre, post, t0, applyUpdate nowIso nowMs body t0, hsplit, ?_, ?_, hmut,
      rfl, rfl, ?_, ?_, ?_, ?_, ?_, ?_, ?_, ?_, ?_⟩
    · intro u hu
      have := hpre u hu
      simpa using this
    · have := List.find?_some hf
      simpa using this
    all_goals (intro hb; simp [applyUpdate, objAssign, hb])

/-- C1 witness: updating with a body that only supplies `date` changes only
the located transaction, keeping `id`, `createdAt`, `createdTimestamp` and
every other unsupplied field. -/
theorem c1_update_frame_witness :
    updateTransaction "U" 7 dateOnlyBody 1 sampleData = some sampleDataUpdated ∧
    ∃ pre post t t',
      sampleData.transactions = pre ++ t :: post ∧
      (∀ u ∈ pre, u.id ≠ 1) ∧
      t.id = 1 ∧
      sampleDataUpdated.transactions = pre ++ t' :: post ∧
      t'.updatedAt = Cell.str "U" ∧
      t'.updatedTimestamp = 7 ∧
      (dateOnlyBody.id = none → t'.id = t.id) ∧
      (dateOnlyBody.createdAt = none → t'.createdAt = t.createdAt) ∧
      (dateOnlyBody.createdTimestamp = none → t'.createdTimestamp = t.createdTimestamp) ∧
      (dateOnlyBody.date = none → t'.date = t.date) ∧
      (dateOnlyBody.type = none → t'.type = t.type) ∧
      (dateOnlyBody.partner = none → t'.partner = t.partner) ∧
      (dateOnlyBody.description = none → t'.description = t.description) ∧
      (dateOnlyBody.amount = none → t'.amount = t.amount) ∧
      (dateOnlyBody.deleted = none → t'.deleted = t.deleted) := by
  have h : updateTransaction "U" 7 dateOnlyBody 1 sampleData = some sampleDataUpdated := by
    decide
  exact ⟨h, c1_update_frame "U" 7 dateOnlyBody 1 sampleData sampleDataUpdated h⟩

/-- C3: encoding the decode of a well-formed row reproduces every cell of
the row exactly. -/
theorem c3_roundtrip (row : List Cell) (i : Nat) (nowIso : String) (nowMs : Int)
    (h : WellFormedRow row) :
    transactionToRow (rowToTransaction nowIso nowMs row i) = row := by
  obtain ⟨idN, d, ty, pa, de, amt, del, ca, ua, ct, ut, hca, hua, hct, hut, rfl⟩ := h
  cases del <;>
    simp [transactionToRow, rowToTransaction, getCell, parseIntOfCell, ratTrunc_intCast,
      parseFloatOfCell, jsOr_str_self, jsOr, jsOrInt, truthy, hca, hua, hct, hut] <;>
    exact ⟨fun h => h.symm, fun h => h.symm, fun h => h.symm, fun h => h.symm⟩

/-- C3 witness: a fully populated well-formed row round-trips through
decode then encode. -/
theorem c3_roundtrip_witness :
    WellFormedRow [Cell.num 5, Cell.str "2024-01-01", Cell.str "expense",
      Cell.str "Alice", Cell.str "lunch", Cell.num 3, Cell.bool false, Cell.str "c",
      Cell.str "u", Cell.num 10, Cell.num 20] ∧
    transactionToRow (rowToTransaction "N" 9
        [Cell.num 5, Cell.str "2024-01-01", Cell.str "expense", Cell.str "Alice",
         Cell.str "lunch", Cell.num 3, Cell.bool false, Cell.str "c", Cell.str "u",
         Cell.num 10, Cell.num 20] 4) =
      [Cell.num 5, Cell.str "2024-01-01", Cell.str "expense", Cell.str "Alice",
       Cell.str "lunch", Cell.num 3, Cell.bool false, Cell.str "c", Cell.str "u",
       Cell.num 10, Cell.num 20] := by
  have hw : WellFormedRow [Cell.num 5, Cell.str "2024-01-01", Cell.str "expense",
      Cell.str "Alice", Cell.str "lunch", Cell.num 3, Cell.bool false, Cell.str "c",
      Cell.str "u", Cell.num 10, Cell.num 20] :=
    ⟨5, "2024-01-01", "expense", "Alice", "lunch", 3, false, "c", "u", 10, 20,
      by decide, by decide, by decide, by decide, by decide⟩
  exact ⟨hw, c3_roundtrip _ 4 "N" 9 hw⟩

/-- C9 counterexample: a store with two non-deleted rows both carrying
identifier 7: the soft-delete succeeds (marking only the first match), the
written-back store keeps the second row non-deleted, and the subsequent
load still returns a transaction with identifier 7. -/
theorem c9_counterexample :
    deleteTransaction "D" 200 7 (loadFromRows "L" 100 [[Cell.num 7], [Cell.num 7]])
      ≠ none ∧
    (loadFromRows "L2" 300
        (deleteStoreEffect "L" 100 "D" 200 7 [[Cell.num 7], [Cell.num 7]])).transactions.map
      Transaction.id = [7] := by decide

/-- C9 (amended): provided the identifiers visible in the loaded snapshot
are pairwise distinct (the spec's uniqueness invariant), after a successful
soft-delete of identifier `X` the subsequent load of the written-back store
returns no transaction with identifier `X`: the marked row is written back
with its deleted flag set, decode recovers that flag, and load's filter
excludes it. -/
theorem c9_delete_invisible (loadIso l2Iso delIso : String)
    (loadMs l2Ms delMs : Int) (X : Int) (rows : List (List Cell))
    (hnd : ((loadFromRows loadIso loadMs rows).transactions.map Transaction.id).Nodup)
    (hdel : deleteTransaction delIso delMs X (loadFromRows loadIso loadMs rows) ≠ none) :
    ∀ t ∈ (loadFromRows l2Iso l2Ms
        (deleteStoreEffect loadIso loadMs delIso delMs X rows)).transactions,
      t.id ≠ X := by
  intro t' ht' hX
  cases hf : (loadFromRows loadIso loadMs rows).transactions.find?
      (fun t => t.id == X) with
  | none =>
    refine hdel ?_
    unfold deleteTransaction
    rw [hf]
  | some t0 =>
    have heff : deleteStoreEffect loadIso loadMs delIso delMs X rows =
        (mutateFirst (fun t => t.id == X) (markDeleted delIso delMs)
          (loadFromRows loadIso loadMs rows).transactions).map transactionToRow := by
      unfold deleteStoreEffect deleteTransaction
      rw [hf]
      rfl
    rw [heff] at ht'
    have hmem := mem_loadFromRows.mp ht'
    have hpair : (t'.id, t'.deleted) ∈
        (decodeAllFrom l2Iso l2Ms 0
          ((mutateFirst (fun t => t.id == X) (markDeleted delIso delMs)
            (loadFromRows loadIso loadMs rows).transactions).map transactionToRow)).map
          (fun t => (t.id, t.deleted)) :=
      List.mem_map_of_mem _ hmem.1
    rw [decodeAllFrom_encode] at hpair
    rcases List.mem_map.mp hpair with ⟨u, hu, hup⟩
    have huid : u.id = X := by
      have := congrArg Prod.fst hup
      simpa [hX] using this
    have hudel : u.deleted = t'.deleted := congrArg Prod.snd hup
    have := mutateFirst_markDeleted_all delIso delMs X
      (loadFromRows loadIso loadMs rows).transactions hnd u hu huid
    rw [hudel, hmem.2] at this
    cases this

/-- C9 witness: soft-deleting the single stored transaction of identifier 1
makes it invisible to the subsequent load. -/
theorem c9_delete_invisible_witness :
    ((loadFromRows "L" 100 [[Cell.num 1]]).transactions.map Transaction.id).Nodup ∧
    deleteTransaction "D" 200 1 (loadFromRows "L" 100 [[Cell.num 1]]) ≠ none ∧
    ∀ t ∈ (loadFromRows "L2" 300
        (deleteStoreEffect "L" 100 "D" 200 1 [[Cell.num 1]])).transactions,
      t.id ≠ 1 := by
  have h1 : ((loadFromRows "L" 100 [[Cell.num 1]]).transactions.map Transaction.id).Nodup := by
    decide
  have h2 : deleteTransaction "D" 200 1 (loadFromRows "L" 100 [[Cell.num 1]]) ≠ none := by
    decide
  exact ⟨h1, h2, c9_delete_invisible "L" "L2" "D" 100 300 200 1 [[Cell.num 1]] h1 h2⟩

end PTA
